import Mathlib

set_option maxRecDepth 100000

/-!
Shallow embedding of `code/gmane.py` (a resumable mail-archive harvester) and
proofs about its parsing and loop logic.

Strings are modelled as `List Char`.  The three regular expressions of the
source (`'\nFrom: .* <(\S+@\S+)>\n'`, `'\nFrom: (\S+@\S+)\n'`,
`'\Date: .*, (.*)\n'`, `'\Subject: (.*)\n'`) use only literal characters,
the classes `.` (any char except newline), `\S` (non-whitespace),
`\D` (non-digit) with greedy `*`/`+`, and a single capture group, so they are
embedded via a small backtracking matcher with Python `re.findall` semantics
(leftmost, non-overlapping, greedy with backtracking, returning the capture
of the single group).  Note that in a Python string literal, `'\D'` and
`'\S'` are a backslash followed by the letter, hence the regex classes
non-digit and non-whitespace — not literal `D`/`S`.
-/

/-- Characters Python's `str.strip()` and the regex class `\s` treat as
whitespace (for the ASCII range relevant here). -/
def isPySpace (c : Char) : Bool :=
  c = ' ' || c = '\t' || c = '\n' || c = '\r' || c = '\x0b' || c = '\x0c'

/-- Python regex `\d` for the ASCII range. -/
def isPyDigit (c : Char) : Bool := '0' ≤ c && c ≤ '9'

/-- Single-character regex classes appearing in the source's patterns. -/
inductive CClass where
  | dot        -- `.`  : any character except a newline
  | nonspace   -- `\S` : any non-whitespace character
  | nondigit   -- `\D` : any non-digit character
  deriving DecidableEq, Repr

def CClass.test : CClass → Char → Bool
  | .dot, c => c ≠ '\n'
  | .nonspace, c => ¬ isPySpace c
  | .nondigit, c => ¬ isPyDigit c

/-- One item of a pattern: a literal character, a one-character class, or a
greedy `*`/`+` over a class.  `cap` marks items inside the (single) capture
group. -/
inductive PatItem where
  | lit (c : Char) (cap : Bool)
  | cls (k : CClass) (cap : Bool)
  | star (k : CClass) (cap : Bool)
  | plus (k : CClass) (cap : Bool)
  deriving DecidableEq, Repr

/-- Backtracking matcher anchored at the start of the input, fuelled so the
recursion is structural (and hence kernel-reducible).  Every recursive call
strictly decreases `input.length + pattern.length` (consuming a star keeps
the pattern and shortens the input; dropping a star keeps the input and
shortens the pattern; the other items shorten both), so fuel
`input.length + pattern.length + 1` never runs out. -/
def pmatchAux : Nat → List PatItem → List Char → Option (List Char × List Char)
  | 0, _, _ => none
  | _ + 1, [], s => some ([], s)
  | _ + 1, .lit _ _ :: _, [] => none
  | fuel + 1, .lit c cap :: ps, a :: s =>
    if a = c then
      match pmatchAux fuel ps s with
      | some (g, r) => some ((if cap then a :: g else g), r)
      | none => none
    else none
  | _ + 1, .cls _ _ :: _, [] => none
  | fuel + 1, .cls k cap :: ps, a :: s =>
    if k.test a then
      match pmatchAux fuel ps s with
      | some (g, r) => some ((if cap then a :: g else g), r)
      | none => none
    else none
  | fuel + 1, .star _ _ :: ps, [] => pmatchAux fuel ps []
  | fuel + 1, .star k cap :: ps, a :: s =>
    if k.test a then
      match pmatchAux fuel (.star k cap :: ps) s with
      | some (g, r) => some ((if cap then a :: g else g), r)
      | none => pmatchAux fuel ps (a :: s)
    else pmatchAux fuel ps (a :: s)
  | _ + 1, .plus _ _ :: _, [] => none
  | fuel + 1, .plus k cap :: ps, a :: s =>
    if k.test a then
      match pmatchAux fuel (.star k cap :: ps) s with
      | some (g, r) => some ((if cap then a :: g else g), r)
      | none => none
    else none

/-- Backtracking match anchored at the start of `s`: returns
`some (captured, rest)` for the backtracking-preferred (greedy) match, where
`captured` collects the characters consumed by `cap`-marked items and `rest`
is the input after the match, or `none` if the pattern does not match here. -/
def pmatch (ps : List PatItem) (s : List Char) : Option (List Char × List Char) :=
  pmatchAux (s.length + ps.length + 1) ps s

/-- `re.findall` semantics: scan left to right; at each position try an
anchored match; on success record the capture and resume after the match
(advancing one character on a zero-width match, as Python does); on failure
advance one character.  Fuelled by the input length: a successful `pmatch`
never produces a `rest` longer than its input, so the fuel never runs out. -/
def findallAux (p : List PatItem) : Nat → List Char → List (List Char)
  | _, [] =>
    match pmatch p [] with
    | some (g, _) => [g]
    | none => []
  | 0, _ :: _ => []
  | fuel + 1, a :: s =>
    match pmatch p (a :: s) with
    | some (g, r) =>
      g :: (if r.length = s.length + 1 then findallAux p fuel s else findallAux p fuel r)
    | none => findallAux p fuel s

def findall (p : List PatItem) (s : List Char) : List (List Char) :=
  findallAux p s.length s

def strOf (s : String) : List Char := s.data

/-- Items for a run of non-captured literal characters. -/
def lits (s : List Char) : List PatItem := s.map (PatItem.lit · false)

/-- Source line 124: `re.findall('\nFrom: .* <(\S+@\S+)>\n', hdr)`. -/
def fromPat1 : List PatItem :=
  lits (strOf "\nFrom: ") ++
    [.star .dot false, .lit ' ' false, .lit '<' false,
     .plus .nonspace true, .lit '@' true, .plus .nonspace true,
     .lit '>' false, .lit '\n' false]

/-- Source line 130: `re.findall('\nFrom: (\S+@\S+)\n', hdr)`. -/
def fromPat2 : List PatItem :=
  lits (strOf "\nFrom: ") ++
    [.plus .nonspace true, .lit '@' true, .plus .nonspace true, .lit '\n' false]

/-- Source line 137: `re.findall('\Date: .*, (.*)\n', hdr)`.  In the Python
string literal `'\Date...'` the `\D` is the regex class "non-digit", so the
pattern is: one non-digit character, the literal `ate: `, anything, a comma
and a space, then the captured rest of the line. -/
def datePat : List PatItem :=
  .cls .nondigit false :: lits (strOf "ate: ") ++
    [.star .dot false, .lit ',' false, .lit ' ' false,
     .star .dot true, .lit '\n' false]

/-- Source line 151: `re.findall('\Subject: (.*)\n', hdr)`.  `\S` is the
regex class "non-whitespace", so the pattern is: one non-whitespace
character, the literal `ubject: `, then the captured rest of the line. -/
def subjPat : List PatItem :=
  .cls .nonspace false :: lits (strOf "ubject: ") ++
    [.star .dot true, .lit '\n' false]

/-- Python `str.strip()`. -/
def trimL (s : List Char) : List Char :=
  ((s.dropWhile isPySpace).reverse.dropWhile isPySpace).reverse

/-- Python `str.lower()` (the inputs of interest are ASCII, where Lean's
`Char.toLower` and Python's `str.lower` agree). -/
def lowerL (s : List Char) : List Char := s.map Char.toLower

/-- Python `str.replace("<", "")`. -/
def stripLt (s : List Char) : List Char := s.filter (· ≠ '<')

/-- Python `text.startswith(p)`. -/
def startsWithL : List Char → List Char → Bool
  | _, [] => true
  | [], _ :: _ => false
  | a :: s, b :: p => a = b && startsWithL s p

/-- Python `text.find("\n\n")`: index of the first blank-line boundary,
`none` standing for `-1`. -/
def findNlNl : List Char → Option Nat
  | [] => none
  | [_] => none
  | a :: b :: rest =>
    if a = '\n' && b = '\n' then some 0
    else (findNlNl (b :: rest)).map (· + 1)

/-- Python `str(n)` for a natural number. -/
def natStrAux : Nat → Nat → List Char
  | 0, _ => []
  | fuel + 1, n =>
    if n < 10 then [Char.ofNat (48 + n)]
    else natStrAux fuel (n / 10) ++ [Char.ofNat (48 + n % 10)]

def natStr (n : Nat) : List Char := natStrAux (n + 1) n

/-- Lines 123-134: email extraction from the header block.  The first
pattern (display name plus angle-bracketed address) is used when it matches
exactly once; otherwise the bare-address pattern is tried, again used only
when it matches exactly once; otherwise the email is absent.  The code
applies `.strip().lower()` and then `.replace("<", "")` to the capture. -/
def emailOf (hdr : List Char) : Option (List Char) :=
  match findall fromPat1 hdr with
  | [a] => some (stripLt (lowerL (trimL a)))
  | _ =>
    match findall fromPat2 hdr with
    | [a] => some (stripLt (lowerL (trimL a)))
    | _ => none

/-- Lines 24-30: `parsemaildate`.  The primary parser is the third-party
`dateutil.parser.parse` followed by `.isoformat()`, the secondary is
`datecompat.parsemaildate` (a sibling file of the repository that is not
among the sources); both are abstract parameters here, returning `none`
where the Python code raises.  The Python body reads the global `tdate`
instead of its argument `md`; at the sole call site (line 142) the argument
is that very global, so applying the primary parser to `md` is faithful. -/
def parsemaildate (primary secondary : List Char → Option (List Char))
    (md : List Char) : Option (List Char) :=
  match primary md with
  | some v => some v
  | none => secondary md

/-- Outcome of the timestamp step for one message. -/
inductive DateOutcome where
  | err
  | val (v : Option (List Char))
  deriving DecidableEq, Repr

/-- Lines 136-148: timestamp extraction.  If the date pattern matches
exactly once, the capture is truncated to its first 26 characters
(`tdate[:26]`) and handed to `parsemaildate`; if both parsers fail the step
is a failure (`err`).  Zero or several matches leave `sent_at = None`. -/
def dateStep (primary secondary : List Char → Option (List Char))
    (hdr : List Char) : DateOutcome :=
  match findall datePat hdr with
  | [d] =>
    match parsemaildate primary secondary (d.take 26) with
    | some v => .val (some v)
    | none => .err
  | _ => .val none

/-- Lines 150-152: subject extraction — `z[0].strip().lower()` when the
pattern matches exactly once, else absent. -/
def subjectOf (hdr : List Char) : Option (List Char) :=
  match findall subjPat hdr with
  | [z] => some (lowerL (trimL z))
  | _ => none

/-- Lines 105-121: split the raw text into header block and body.  Fails
(`none`) when the text does not start with `From ` at position 0, or when
`text.find("\n\n")` is `-1` or `0` (the code requires `pos > 0`). -/
def parseSplit (text : List Char) : Option (List Char × List Char) :=
  if startsWithL text (strOf "From ") then
    match findNlNl text with
    | some pos => if pos > 0 then some (text.take pos, text.drop (pos + 2)) else none
    | none => none
  else none

/-- One stored record of the `messages` table (lines 44-46). -/
structure Row where
  id : Nat
  email : Option (List Char)
  sent_at : Option (List Char)
  subject : Option (List Char)
  headers : List Char
  body : List Char
  deriving DecidableEq, Repr

/-- Lines 44-46: `CREATE TABLE IF NOT EXISTS messages (id SERIAL, ...)`.
`SERIAL` gives `id` a sequence default but declares no PRIMARY KEY and no
UNIQUE constraint, so the created table has no unique constraint on `id`. -/
def messagesHasUniqueId : Bool := false

/-- PostgreSQL semantics of `INSERT ... ON CONFLICT DO NOTHING` with no
conflict target (lines 157-159): the insert is skipped only when the new
row violates some unique constraint of the table; when the table has no
unique constraint the row is always appended.  `uniq` says whether the
table has a unique constraint on `id`. -/
def insertOnConflictDoNothing (uniq : Bool) (db : List Row) (r : Row) : List Row :=
  if uniq && db.any (fun q => q.id == r.id) then db else db ++ [r]

/-- Outcome of `urllib.request.urlopen(url, None, 30, context=ctx)` plus
`document.read().decode()` (lines 84-100): `intr` is `KeyboardInterrupt`,
`err` any other exception (timeout, connection error, decode failure, an
error status raised by the library), `page code text` a response whose body
was read, together with `document.getcode()`. -/
inductive FetchResult where
  | intr
  | err
  | page (code : Nat) (text : List Char)

/-- The mutable state of the main loop (lines 49-64): cursor `start`,
session budget `many`, processed-message `count`, consecutive-failure
counter `fail`, and the store contents. -/
structure LoopState where
  start : Nat
  many : Int
  count : Nat
  fail : Nat
  db : List Row
  deriving DecidableEq, Repr

/-- Line 42 / line 81: the retrieval address for identifier `id1` is
`baseurl + str(start) + '/' + str(start + 1)`. -/
def baseurl : List Char := strOf "http://mbox.dr-chuck.net/sakai.devel/"

def urlFor (id1 : Nat) : List Char :=
  baseurl ++ natStr id1 ++ strOf "/" ++ natStr (id1 + 1)

/-- Result of one iteration of the `while` body: `next` continues the loop,
`halt` is a `break`. -/
inductive StepResult where
  | next (s : LoopState)
  | halt (s : LoopState)
  deriving DecidableEq, Repr

/-- Lines 72-161: one iteration of the `while True` body after the budget
prompt.  `fetch` is the network oracle, keyed by the requested URL;
`primary`/`secondary` are the two date parsers.  The iteration: increment
the cursor; skip (`continue`) if the id is already stored (line 76);
decrement the budget; fetch; `break` on interrupt, count a failure on a
fetch exception, `break` on a non-200 status (line 90); increment `count`;
split into header and body, counting a failure if that fails; extract the
date, counting a failure if a date match exists but parsing fails; on full
success reset `fail` to 0 and insert the row.  Every failure branch breaks
when the incremented counter exceeds 5 (`if fail > 5 : break`). -/
def loopBody (fetch : List Char → FetchResult)
    (primary secondary : List Char → Option (List Char))
    (s : LoopState) : StepResult :=
  let start := s.start + 1
  if s.db.any (fun q => q.id == start) then
    .next { s with start := start }
  else
    let many := s.many - 1
    match fetch (urlFor start) with
    | .intr => .halt { s with start := start, many := many }
    | .err =>
      let fail := s.fail + 1
      if fail > 5 then .halt { s with start := start, many := many, fail := fail }
      else .next { s with start := start, many := many, fail := fail }
    | .page code text =>
      if code ≠ 200 then .halt { s with start := start, many := many }
      else
        let count := s.count + 1
        match parseSplit text with
        | none =>
          let fail := s.fail + 1
          if fail > 5 then
            .halt { s with start := start, many := many, count := count, fail := fail }
          else
            .next { s with start := start, many := many, count := count, fail := fail }
        | some (hdr, body) =>
          match dateStep primary secondary hdr with
          | .err =>
            let fail := s.fail + 1
            if fail > 5 then
              .halt { s with start := start, many := many, count := count, fail := fail }
            else
              .next { s with start := start, many := many, count := count, fail := fail }
          | .val sent_at =>
            let row : Row := ⟨start, emailOf hdr, sent_at, subjectOf hdr, hdr, body⟩
            let db := insertOnConflictDoNothing messagesHasUniqueId s.db row
            .next { s with start := start, many := many, count := count, fail := 0, db := db }

/-- Result of `cur.fetchone()` after `SELECT max(id) FROM messages`
(lines 50-58): `qfail` – the call raised, `qnone` – it returned no row,
`qrow v` – a row whose single column is `v` (`NULL` for an empty table). -/
inductive MaxQueryResult where
  | qfail
  | qnone
  | qrow (v : Option Nat)
  deriving DecidableEq, Repr

/-- Lines 49-60: the startup cursor.  `row is None` and an exception both
give 0, and the trailing `if start is None : start = 0` turns a `NULL`
maximum into 0. -/
def startCursor : MaxQueryResult → Nat
  | .qfail => 0
  | .qnone => 0
  | .qrow none => 0
  | .qrow (some m) => m

/-- PostgreSQL semantics of `SELECT max(id) FROM messages`: `NULL` on an
empty table, otherwise the maximum of the stored ids. -/
def sqlMaxId : List Row → Option Nat
  | [] => none
  | r :: rest =>
    some (match sqlMaxId rest with
          | none => r.id
          | some m => max r.id m)

/-- Runs iterations of the loop body until the budget is exhausted
(`many < 1`, where lines 66-70 would prompt again), returning `none` if a
`break` occurs first or the fuel runs out.  On success returns the state at
the prompt and the number of iterations that were not skips, i.e. the
number of attempts at identifiers not already stored. -/
def runBudget (fetch : List Char → FetchResult)
    (primary secondary : List Char → Option (List Char)) :
    Nat → LoopState → Option (LoopState × Nat)
  | 0, _ => none
  | fuel + 1, s =>
    if s.many < 1 then some (s, 0)
    else
      match loopBody fetch primary secondary s with
      | .next r =>
        match runBudget fetch primary secondary fuel r with
        | some (t, n) =>
          some (t, n + (if s.db.any (fun q => q.id == s.start + 1) then 0 else 1))
        | none => none
      | .halt _ => none

/-! ## Concrete fixtures -/

/-- A well-formed archive message: separator line, headers (the `Date:`
header is deliberately not the last header line — the header block produced
by `text[:pos]` has no trailing newline, so a label on the last line can
never match the newline-terminated patterns), blank line, body. -/
def hdrGood : List Char :=
  strOf "From x\nFrom: Jane Doe <Jane@Ex.Com>\nDate: Mon, 1 Jan 2020 00:00:01 +0000\nSubject: Hi There\nX: y"

def bodyGood : List Char := strOf "body text"

def msgGood : List Char := hdrGood ++ strOf "\n\n" ++ bodyGood

/-- A network oracle that always serves `msgGood` with status 200. -/
def fetchGood : List Char → FetchResult := fun _ => .page 200 msgGood

/-- A date parser that accepts every input unchanged (stands in for a
successful `dateutil`/`datecompat` parse). -/
def primId : List Char → Option (List Char) := fun t => some t

/-- A date parser that rejects every input (stands in for a parser that
raises). -/
def rejectP : List Char → Option (List Char) := fun _ => none

def sentGood : List Char := strOf "1 Jan 2020 00:00:01 +0000"

/-- The record the loop persists for `msgGood` under identifier `i` and the
`primId` parsers. -/
def rowGood (i : Nat) : Row :=
  ⟨i, some (strOf "jane@ex.com"), some sentGood, some (strOf "hi there"), hdrGood, bodyGood⟩

/-- A minimal pre-existing record with identifier `i`. -/
def stubRow (i : Nat) : Row := ⟨i, none, none, none, [], []⟩

/-- Header block for the C4 counterexample: exactly one `Date:` line, but a
`Mandate:` line that also matches the code's date pattern. -/
def hdrC4 : List Char := strOf "From x\nDate: Mon, 1 Jan 2020 00:00:01\nMandate: Tue, foo\nX: z"

/-- Header block for the C6 counterexample: no `Subject:` line, but an
`X-Note:` line containing `resubject: hello`. -/
def hdrC6 : List Char := strOf "From x\nX-Note: resubject: hello\nX: z"

/-! ## Spec-side definitions

The spec speaks of "a `Date:` line" and "a `Subject:` line" of the header
block.  To compare that reading with the code's patterns we need the
spec-side notion of the lines of a block that literally start with a label.
-/

def splitNl : List Char → List (List Char)
  | [] => [[]]
  | c :: rest =>
    if c = '\n' then [] :: splitNl rest
    else
      match splitNl rest with
      | [] => [[c]]
      | l :: ls => (c :: l) :: ls

/-- The lines of `hdr` that start with `lbl` — the spec's "`Date:` lines" /
"`Subject:` lines" (for claims C4 and C6). -/
def linesWithLabel (lbl hdr : List Char) : List (List Char) :=
  (splitNl hdr).filter (fun l => startsWithL l lbl)


/-! ## Helper lemmas about the loop body -/

/-- An already-stored id makes the iteration a pure `continue`: only the
cursor moves. -/
theorem loopBody_skip (f : List Char → FetchResult)
    (p q : List Char → Option (List Char)) (s : LoopState)
    (h : s.db.any (fun r => r.id == s.start + 1) = true) :
    loopBody f p q s = .next { s with start := s.start + 1 } := by
  simp [loopBody, h]

/-- A non-skipped iteration that continues has decremented the budget by
exactly one. -/
theorem loopBody_next_many (f : List Char → FetchResult)
    (p q : List Char → Option (List Char)) (s r : LoopState)
    (hns : s.db.any (fun t => t.id == s.start + 1) = false)
    (h : loopBody f p q s = .next r) : r.many = s.many - 1 := by
  simp only [loopBody, hns, Bool.false_eq_true, if_false] at h
  split at h
  · exact StepResult.noConfusion h
  · split at h
    · exact StepResult.noConfusion h
    · injection h with h; subst h; rfl
  · split at h
    · exact StepResult.noConfusion h
    · split at h
      · split at h
        · exact StepResult.noConfusion h
        · injection h with h; subst h; rfl
      · split at h
        · split at h
          · exact StepResult.noConfusion h
          · injection h with h; subst h; rfl
        · injection h with h; subst h; rfl

/-- Whatever happens in a non-prompt iteration, the resulting state's cursor
is `s.start + 1`: the body only ever works on the identifier `cursor + 1`. -/
theorem loopBody_start_eq (f : List Char → FetchResult)
    (p q : List Char → Option (List Char)) (s r : LoopState) :
    loopBody f p q s = .next r ∨ loopBody f p q s = .halt r →
    r.start = s.start + 1 := by
  intro h
  by_cases hsk : s.db.any (fun t => t.id == s.start + 1) = true
  · rw [loopBody_skip f p q s hsk] at h
    rcases h with h | h
    · injection h with h; subst h; rfl
    · exact StepResult.noConfusion h
  · have hns : s.db.any (fun t => t.id == s.start + 1) = false := by
      revert hsk; cases s.db.any (fun t => t.id == s.start + 1) <;> simp
    simp only [loopBody, hns, Bool.false_eq_true, if_false] at h
    rcases h with h | h <;>
      (repeat' split at h) <;>
      first
        | exact StepResult.noConfusion h
        | (injection h with h; subst h; rfl)

/-- Lines 95-100: a fetch exception increments the failure counter and
either `break`s (counter above 5) or `continue`s. -/
theorem loopBody_fetch_err (f : List Char → FetchResult)
    (p q : List Char → Option (List Char)) (s : LoopState)
    (hns : s.db.any (fun t => t.id == s.start + 1) = false)
    (hf : f (urlFor (s.start + 1)) = .err) :
    loopBody f p q s =
      if s.fail + 1 > 5 then
        .halt { s with start := s.start + 1, many := s.many - 1, fail := s.fail + 1 }
      else
        .next { s with start := s.start + 1, many := s.many - 1, fail := s.fail + 1 } := by
  simp only [loopBody, hns, Bool.false_eq_true, if_false, hf]

/-- Lines 88-90: a response carrying a status other than 200 makes the run
`break`, leaving the failure counter and the store untouched. -/
theorem loopBody_bad_status (f : List Char → FetchResult)
    (p q : List Char → Option (List Char)) (s : LoopState) (code : Nat) (text : List Char)
    (hns : s.db.any (fun t => t.id == s.start + 1) = false)
    (hf : f (urlFor (s.start + 1)) = .page code text) (hcode : code ≠ 200) :
    loopBody f p q s =
      .halt { s with start := s.start + 1, many := s.many - 1 } := by
  simp only [loopBody, hns, Bool.false_eq_true, if_false, hf]
  rw [if_pos hcode]

/-- Lines 105-121: a message failing the marker or boundary check counts a
failure; the store is untouched. -/
theorem loopBody_format_fail (f : List Char → FetchResult)
    (p q : List Char → Option (List Char)) (s : LoopState) (text : List Char)
    (hns : s.db.any (fun t => t.id == s.start + 1) = false)
    (hf : f (urlFor (s.start + 1)) = .page 200 text)
    (hsplit : parseSplit text = none) :
    loopBody f p q s =
      if s.fail + 1 > 5 then
        .halt { s with start := s.start + 1, many := s.many - 1, count := s.count + 1, fail := s.fail + 1 }
      else
        .next { s with start := s.start + 1, many := s.many - 1, count := s.count + 1, fail := s.fail + 1 } := by
  simp only [loopBody, hns, Bool.false_eq_true, if_false, hf, hsplit, ne_eq,
    not_true_eq_false, if_false]

/-- Lines 136-148: a date-parse failure counts a failure; the store is
untouched. -/
theorem loopBody_date_fail (f : List Char → FetchResult)
    (p q : List Char → Option (List Char)) (s : LoopState) (text hdr bd : List Char)
    (hns : s.db.any (fun t => t.id == s.start + 1) = false)
    (hf : f (urlFor (s.start + 1)) = .page 200 text)
    (hsplit : parseSplit text = some (hdr, bd))
    (hdate : dateStep p q hdr = .err) :
    loopBody f p q s =
      if s.fail + 1 > 5 then
        .halt { s with start := s.start + 1, many := s.many - 1, count := s.count + 1, fail := s.fail + 1 }
      else
        .next { s with start := s.start + 1, many := s.many - 1, count := s.count + 1, fail := s.fail + 1 } := by
  simp only [loopBody, hns, Bool.false_eq_true, if_false, hf, hsplit, hdate, ne_eq,
    not_true_eq_false, if_false]

/-- Lines 150-161: a fully parsed message resets the failure counter to 0
and is inserted. -/
theorem loopBody_persist (f : List Char → FetchResult)
    (p q : List Char → Option (List Char)) (s : LoopState) (text hdr bd : List Char)
    (v : Option (List Char))
    (hns : s.db.any (fun t => t.id == s.start + 1) = false)
    (hf : f (urlFor (s.start + 1)) = .page 200 text)
    (hsplit : parseSplit text = some (hdr, bd))
    (hdate : dateStep p q hdr = .val v) :
    loopBody f p q s =
      .next { s with start := s.start + 1, many := s.many - 1, count := s.count + 1, fail := 0, db := insertOnConflictDoNothing messagesHasUniqueId s.db ⟨s.start + 1, emailOf hdr, v, subjectOf hdr, hdr, bd⟩ } := by
  simp only [loopBody, hns, Bool.false_eq_true, if_false, hf, hsplit, hdate, ne_eq,
    not_true_eq_false, if_false]

/-- Every stored id is bounded by the startup cursor computed from
`SELECT max(id)`. -/
theorem sqlMaxId_le (db : List Row) (r : Row) (h : r ∈ db) :
    r.id ≤ startCursor (.qrow (sqlMaxId db)) := by
  induction db with
  | nil => cases h
  | cons a rest ih =>
    rcases List.mem_cons.mp h with h | h
    · subst h
      cases hrest : sqlMaxId rest with
      | none => simp [sqlMaxId, hrest, startCursor]
      | some m => simp [sqlMaxId, hrest, startCursor]
    · cases hrest : sqlMaxId rest with
      | none =>
        cases rest with
        | nil => cases h
        | cons b t => simp [sqlMaxId] at hrest
      | some m =>
        have := ih h
        rw [hrest] at this
        simp only [startCursor] at this ⊢
        simp [sqlMaxId, hrest]
        exact Or.inr this

/-- On a non-empty store, the startup cursor is one of the stored ids. -/
theorem sqlMaxId_attained (db : List Row) (h : db ≠ []) :
    ∃ r ∈ db, startCursor (.qrow (sqlMaxId db)) = r.id := by
  induction db with
  | nil => exact absurd rfl h
  | cons a rest ih =>
    cases hrest : sqlMaxId rest with
    | none =>
      refine ⟨a, List.mem_cons_self a rest, ?_⟩
      simp [sqlMaxId, hrest, startCursor]
    | some m =>
      have hne : rest ≠ [] := by
        intro he; rw [he] at hrest; simp [sqlMaxId] at hrest
      obtain ⟨r, hr, heq⟩ := ih hne
      rw [hrest] at heq
      simp only [startCursor] at heq
      by_cases hc : a.id ≤ m
      · refine ⟨r, List.mem_cons_of_mem a hr, ?_⟩
        have hv : sqlMaxId (a :: rest) = some (max a.id m) := by
          simp [sqlMaxId, hrest]
        rw [hv]
        simp only [startCursor]
        rw [max_eq_right hc]
        exact heq
      · refine ⟨a, List.mem_cons_self a rest, ?_⟩
        have hv : sqlMaxId (a :: rest) = some (max a.id m) := by
          simp [sqlMaxId, hrest]
        rw [hv]
        simp only [startCursor]
        rw [max_eq_left (le_of_not_le hc)]

/-! ## Claim C1 -/

/-- C1: refuted — the claim says a second insert with an existing `id` is a
no-op ("first write wins"), leaving exactly one record per `id`.  But the
DDL (lines 44-46) declares `id SERIAL` with no PRIMARY KEY and no UNIQUE
constraint, so `ON CONFLICT DO NOTHING` (lines 157-159) has no unique
constraint to conflict with: inserting the same `id` twice leaves TWO
records with that `id`. -/
theorem C1_same_id_inserted_twice_gives_two_records :
    insertOnConflictDoNothing messagesHasUniqueId
        (insertOnConflictDoNothing messagesHasUniqueId [] (stubRow 1)) (stubRow 1)
      = [stubRow 1, stubRow 1] := rfl

/-! ## Claim C2 -/

/-- C2 counterexample: at a state with no prior failures, a fetch that
RETURNS status 500 makes the run terminate (`break`, line 90) without
incrementing the failure counter and without continuing to the next
identifier — not the recoverable skip the claim describes for every
non-success status. -/
theorem C2_nonsuccess_status_halts_run :
    loopBody (fun _ => .page 500 (strOf "oops")) primId primId ⟨0, 3, 0, 0, []⟩
      = .halt ⟨1, 2, 0, 0, []⟩ := rfl

/-- C2 (amended): a fetch that RAISES a transport exception (timeout,
connection error, or an error status surfaced as an exception) is
recoverable — the identifier is skipped, the failure counter is
incremented, and while the counter stays within the threshold the loop
continues; but a fetch that RETURNS a response with a non-success status
makes the run terminate, the failure counter unchanged. -/
theorem C2_transport_error_skips_but_bad_status_halts
    (f : List Char → FetchResult)
    (p q : List Char → Option (List Char)) (s : LoopState)
    (hns : s.db.any (fun t => t.id == s.start + 1) = false) :
    (f (urlFor (s.start + 1)) = .err → s.fail < 5 →
      loopBody f p q s =
        .next { s with start := s.start + 1, many := s.many - 1, fail := s.fail + 1 }) ∧
    (∀ code text, f (urlFor (s.start + 1)) = .page code text → code ≠ 200 →
      loopBody f p q s = .halt { s with start := s.start + 1, many := s.many - 1 }) := by
  constructor
  · intro hf hlt
    rw [loopBody_fetch_err f p q s hns hf, if_neg (by omega)]
  · intro code text hf hcode
    exact loopBody_bad_status f p q s code text hns hf hcode

/-- Witness for C2 at a concrete input: an always-raising oracle at a fresh
state increments the counter and continues. -/
theorem C2_transport_error_skips_but_bad_status_halts_witness :
    loopBody (fun _ => FetchResult.err) primId primId ⟨0, 3, 0, 0, []⟩
      = .next ⟨1, 2, 0, 1, []⟩ :=
  (C2_transport_error_skips_but_bad_status_halts (fun _ => .err) primId primId
    ⟨0, 3, 0, 0, []⟩ rfl).1 rfl (by decide)

/-! ## Claim C3 -/

/-- C3 counterexample: with the failure counter at 5 after five consecutive
transport failures, the sixth attempt still performs its network call: if
that sixth call succeeds the run simply continues (and the counter resets to
0), and only when it also fails does the run terminate — refuting
"five consecutive transport failures trigger termination on the sixth
attempt without a sixth network call being required to detect the trip". -/
theorem C3_sixth_attempt_still_fetches :
    loopBody (fun _ => .page 200 msgGood) primId primId ⟨0, 9, 0, 5, []⟩
      = .next ⟨1, 8, 1, 0, [rowGood 1]⟩ ∧
    loopBody (fun _ => .err) primId primId ⟨0, 9, 0, 5, []⟩
      = .halt ⟨1, 8, 0, 6, []⟩ := by
  constructor <;> decide

/-- C3 (amended): the consecutive-failure counter increments on any fetch,
format, or date-parse failure and resets to zero on the first subsequent
success; the run terminates as soon as the incremented counter EXCEEDS 5 —
that is, on the sixth consecutive failure, after the sixth attempt's
network call has been made and failed (the counter check immediately
follows the failing call; five failures alone do not trip it). -/
theorem C3_failure_counter_behaviour (f : List Char → FetchResult)
    (p q : List Char → Option (List Char)) (s : LoopState)
    (hns : s.db.any (fun t => t.id == s.start + 1) = false) :
    (f (urlFor (s.start + 1)) = .err →
      loopBody f p q s =
        if s.fail + 1 > 5 then
          .halt { s with start := s.start + 1, many := s.many - 1, fail := s.fail + 1 }
        else
          .next { s with start := s.start + 1, many := s.many - 1, fail := s.fail + 1 }) ∧
    (∀ text, f (urlFor (s.start + 1)) = .page 200 text → parseSplit text = none →
      loopBody f p q s =
        if s.fail + 1 > 5 then
          .halt { s with start := s.start + 1, many := s.many - 1, count := s.count + 1, fail := s.fail + 1 }
        else
          .next { s with start := s.start + 1, many := s.many - 1, count := s.count + 1, fail := s.fail + 1 }) ∧
    (∀ text hdr bd, f (urlFor (s.start + 1)) = .page 200 text →
      parseSplit text = some (hdr, bd) → dateStep p q hdr = .err →
      loopBody f p q s =
        if s.fail + 1 > 5 then
          .halt { s with start := s.start + 1, many := s.many - 1, count := s.count + 1, fail := s.fail + 1 }
        else
          .next { s with start := s.start + 1, many := s.many - 1, count := s.count + 1, fail := s.fail + 1 }) ∧
    (∀ text hdr bd v, f (urlFor (s.start + 1)) = .page 200 text →
      parseSplit text = some (hdr, bd) → dateStep p q hdr = .val v →
      loopBody f p q s =
        .next { s with start := s.start + 1, many := s.many - 1, count := s.count + 1, fail := 0, db := insertOnConflictDoNothing messagesHasUniqueId s.db ⟨s.start + 1, emailOf hdr, v, subjectOf hdr, hdr, bd⟩ }) := by
  refine ⟨fun hf => loopBody_fetch_err f p q s hns hf,
    fun text hf hsp => loopBody_format_fail f p q s text hns hf hsp,
    fun text hdr bd hf hsp hd => loopBody_date_fail f p q s text hdr bd hns hf hsp hd,
    fun text hdr bd v hf hsp hd => loopBody_persist f p q s text hdr bd v hns hf hsp hd⟩

/-- Witness for C3 at a concrete input: the sixth consecutive fetch failure
(counter at 5) makes the run terminate with the counter at 6. -/
theorem C3_failure_counter_behaviour_witness :
    loopBody (fun _ => FetchResult.err) primId primId ⟨3, 7, 2, 5, []⟩
      = .halt ⟨4, 6, 2, 6, []⟩ := by
  have h := (C3_failure_counter_behaviour (fun _ => .err) primId primId
    ⟨3, 7, 2, 5, []⟩ rfl).1 rfl
  simpa using h

/-! ## Claim C4 -/

/-- C4 counterexample: `hdrC4` contains exactly one `Date:` line, whose
value after the weekday/comma is accepted unchanged even by the primary
parser (`primId`), yet the code records NO timestamp: the header line
`Mandate: Tue, foo` also matches the code's pattern `'\Date: .*, (.*)\n'`
(`\D` is the class "non-digit" and the match need not start a line), so the
pattern matches twice, `len(y) == 1` fails, and the timestamp is dropped —
refuting "the value of a `Date:` line ... is parsed by a primary parser
applied to that value". -/
theorem C4_mandate_line_suppresses_date :
    linesWithLabel (strOf "Date:") hdrC4 = [strOf "Date: Mon, 1 Jan 2020 00:00:01"] ∧
    findall datePat hdrC4 = [strOf "1 Jan 2020 00:00:01", strOf "foo"] ∧
    dateStep primId primId hdrC4 = .val none := ⟨rfl, rfl, rfl⟩

/-- C4 (amended): timestamp extraction searches the header block for the
pattern `'\Date: .*, (.*)\n'` — a non-digit character followed by `ate: `,
anything, a comma and a space, then a captured rest-of-line — anywhere in
the block, not only on `Date:` lines.  When that pattern matches exactly
once, the capture truncated to its first 26 characters is given to the
primary parser, the secondary lenient parser being tried on the same
truncated value when the primary fails; when both fail the message counts
as a failure toward the consecutive-failure budget and is not persisted.
When the pattern does not match exactly once, the timestamp is absent and
the message is not treated as a failure. -/
theorem C4_date_pattern_extraction (p q : List Char → Option (List Char)) :
    (∀ hdr d, findall datePat hdr = [d] → p (d.take 26) = none → q (d.take 26) = none →
      dateStep p q hdr = .err) ∧
    (∀ hdr d v, findall datePat hdr = [d] → p (d.take 26) = some v →
      dateStep p q hdr = .val (some v)) ∧
    (∀ hdr d v, findall datePat hdr = [d] → p (d.take 26) = none → q (d.take 26) = some v →
      dateStep p q hdr = .val (some v)) ∧
    (∀ hdr, (findall datePat hdr).length ≠ 1 → dateStep p q hdr = .val none) ∧
    (∀ f s text hdr bd, s.db.any (fun t => t.id == s.start + 1) = false →
      f (urlFor (s.start + 1)) = .page 200 text → parseSplit text = some (hdr, bd) →
      dateStep p q hdr = .err → s.fail < 5 →
      loopBody f p q s = .next { s with start := s.start + 1, many := s.many - 1, count := s.count + 1, fail := s.fail + 1 }) ∧
    (∀ f s text hdr bd, s.db.any (fun t => t.id == s.start + 1) = false →
      f (urlFor (s.start + 1)) = .page 200 text → parseSplit text = some (hdr, bd) →
      findall datePat hdr = [] →
      loopBody f p q s = .next { s with start := s.start + 1, many := s.many - 1, count := s.count + 1, fail := 0, db := insertOnConflictDoNothing messagesHasUniqueId s.db ⟨s.start + 1, emailOf hdr, none, subjectOf hdr, hdr, bd⟩ }) := by
  refine ⟨?_, ?_, ?_, ?_, ?_, ?_⟩
  · intro hdr d h hp hq; simp [dateStep, h, parsemaildate, hp, hq]
  · intro hdr d v h hp; simp [dateStep, h, parsemaildate, hp]
  · intro hdr d v h hp hq; simp [dateStep, h, parsemaildate, hp, hq]
  · intro hdr hlen
    rcases hl : findall datePat hdr with _ | ⟨x, t⟩
    · simp [dateStep, hl]
    · rcases t with _ | ⟨y, t⟩
      · rw [hl] at hlen; simp at hlen
      · simp [dateStep, hl]
  · intro f s text hdr bd hns hf hsp hd hlt
    rw [loopBody_date_fail f p q s text hdr bd hns hf hsp hd, if_neg (by omega)]
  · intro f s text hdr bd hns hf hsp hmatch
    have hd : dateStep p q hdr = .val none := by simp [dateStep, hmatch]
    exact loopBody_persist f p q s text hdr bd none hns hf hsp hd

/-- Witness for C4 at a concrete input: `hdrGood`'s one date match is
truncated and parsed by the primary parser. -/
theorem C4_date_pattern_extraction_witness :
    dateStep primId primId hdrGood = .val (some sentGood) :=
  (C4_date_pattern_extraction primId primId).2.1 hdrGood sentGood sentGood
    (by decide) (by decide)

/-! ## Claim C5 -/

/-- C5: email extraction — when the display-name pattern
`'\nFrom: .* <(\S+@\S+)>\n'` matches exactly once, the angle-bracketed
address is used; otherwise, when the bare pattern `'\nFrom: (\S+@\S+)\n'`
matches exactly once, that address is used; otherwise the email is absent.
The used address is trimmed, lowercased and stripped of `<`.  Round-trip: a
message with the header line `From: Jane Doe <Jane@Ex.Com>` parses to
`jane@ex.com`. -/
theorem C5_email_extraction :
    (∀ hdr a, findall fromPat1 hdr = [a] → emailOf hdr = some (stripLt (lowerL (trimL a)))) ∧
    (∀ hdr a, (findall fromPat1 hdr).length ≠ 1 → findall fromPat2 hdr = [a] →
      emailOf hdr = some (stripLt (lowerL (trimL a)))) ∧
    (∀ hdr, (findall fromPat1 hdr).length ≠ 1 → (findall fromPat2 hdr).length ≠ 1 →
      emailOf hdr = none) ∧
    emailOf hdrGood = some (strOf "jane@ex.com") := by
  refine ⟨?_, ?_, ?_, by decide⟩
  · intro hdr a h; simp [emailOf, h]
  · intro hdr a h1 h2
    rcases hl : findall fromPat1 hdr with _ | ⟨x, t⟩
    · simp [emailOf, hl, h2]
    · rcases t with _ | ⟨y, t⟩
      · rw [hl] at h1; simp at h1
      · simp [emailOf, hl, h2]
  · intro hdr h1 h2
    have main : ∀ u : List (List Char), u.length ≠ 1 →
        (match u with
          | [a] => some (stripLt (lowerL (trimL a)))
          | _ => none) = (none : Option (List Char)) := by
      intro u hu
      rcases u with _ | ⟨x, _ | ⟨y, t⟩⟩ <;> simp_all
    rcases hl : findall fromPat1 hdr with _ | ⟨x, t⟩
    · simpa [emailOf, hl] using main _ h2
    · rcases t with _ | ⟨y, t⟩
      · rw [hl] at h1; simp at h1
      · simpa [emailOf, hl] using main _ h2

/-- Witness for C5 at a concrete input: the capture of the display-name
pattern on `hdrGood`, cleaned up. -/
theorem C5_email_extraction_witness :
    emailOf hdrGood = some (stripLt (lowerL (trimL (strOf "Jane@Ex.Com")))) :=
  C5_email_extraction.1 hdrGood (strOf "Jane@Ex.Com") (by decide)

/-! ## Claim C6 -/

/-- C6 counterexample: `hdrC6` contains NO `Subject:` line at all, yet the
code extracts the subject `hello`: the pattern `'\Subject: (.*)\n'` begins
with the class `\S` (non-whitespace), so it also matches inside the line
`X-Note: resubject: hello` — refuting "zero matches ... yields absent". -/
theorem C6_subject_from_non_subject_line :
    linesWithLabel (strOf "Subject:") hdrC6 = [] ∧
    subjectOf hdrC6 = some (strOf "hello") := ⟨rfl, rfl⟩

/-- C6 (amended): subject extraction searches the header block for the
pattern `'\Subject: (.*)\n'` — a non-whitespace character followed by
`ubject: ` anywhere in the block, not only at the start of a `Subject:`
line.  When that pattern matches exactly once the subject is the capture
trimmed and lowercased; otherwise (zero or several matches) it is absent,
never a partial result. -/
theorem C6_subject_pattern_extraction :
    (∀ hdr z, findall subjPat hdr = [z] → subjectOf hdr = some (lowerL (trimL z))) ∧
    (∀ hdr, (findall subjPat hdr).length ≠ 1 → subjectOf hdr = none) ∧
    subjectOf hdrGood = some (strOf "hi there") := by
  refine ⟨?_, ?_, by decide⟩
  · intro hdr z h; simp [subjectOf, h]
  · intro hdr hlen
    rcases hl : findall subjPat hdr with _ | ⟨x, t⟩
    · simp [subjectOf, hl]
    · rcases t with _ | ⟨y, t⟩
      · rw [hl] at hlen; simp at hlen
      · simp [subjectOf, hl]

/-- Witness for C6 at a concrete input: the single pattern match on
`hdrGood`, trimmed and lowercased. -/
theorem C6_subject_pattern_extraction_witness :
    subjectOf hdrGood = some (lowerL (trimL (strOf "Hi There"))) :=
  C6_subject_pattern_extraction.1 hdrGood (strOf "Hi There") (by decide)

/-! ## Claim C7 -/

/-- C7: resume behaviour — the startup cursor is the maximum stored
identifier (it bounds every stored id and is attained by one of them when
the store is non-empty) and is 0 when the store is empty (`max(id)` is
`NULL`), when no row comes back, or when the query fails; each iteration
works on and moves to `cursor + 1`; the iteration consults the network
oracle only at the address `urlFor (cursor + 1)`, which joins the base
location with `id` and `id + 1` as path segments — concretely,
`urlFor 6 = "http://mbox.dr-chuck.net/sakai.devel/6/7"`. -/
theorem C7_resume_cursor_and_url :
    (startCursor .qfail = 0 ∧ startCursor .qnone = 0 ∧ startCursor (.qrow none) = 0 ∧
      sqlMaxId [] = none) ∧
    (∀ db r, r ∈ db → r.id ≤ startCursor (.qrow (sqlMaxId db))) ∧
    (∀ db, db ≠ [] → ∃ r ∈ db, startCursor (.qrow (sqlMaxId db)) = r.id) ∧
    (∀ f p q s r, loopBody f p q s = .next r ∨ loopBody f p q s = .halt r →
      r.start = s.start + 1) ∧
    (∀ f g p q s, f (urlFor (s.start + 1)) = g (urlFor (s.start + 1)) →
      loopBody f p q s = loopBody g p q s) ∧
    urlFor 6 = strOf "http://mbox.dr-chuck.net/sakai.devel/6/7" := by
  refine ⟨⟨rfl, rfl, rfl, rfl⟩, ?_, ?_, ?_, ?_, by decide⟩
  · intro db r hr; exact sqlMaxId_le db r hr
  · intro db h; exact sqlMaxId_attained db h
  · intro f p q s r h; exact loopBody_start_eq f p q s r h
  · intro f g p q s h
    simp only [loopBody]
    rw [h]

/-- Witness for C7 at a concrete input: with ids 2 and 5 stored, the
startup cursor bounds the stored id 5. -/
theorem C7_resume_cursor_and_url_witness :
    (stubRow 5).id ≤ startCursor (.qrow (sqlMaxId [stubRow 2, stubRow 5])) :=
  C7_resume_cursor_and_url.2.1 [stubRow 2, stubRow 5] (stubRow 5) (by simp)

/-! ## Claim C8 -/

/-- C8: a raw text that does not start with `From ` at position 0, or that
lacks a blank-line header/body boundary, is reported as unparsable
(`parseSplit` returns `none`, a total function — no uncaught fault), the
message is not persisted, and in the loop the failure is recoverable: the
failure counter is incremented and, while it stays within the threshold,
the loop continues with the store unchanged. -/
theorem C8_unrecognized_text_is_recoverable :
    (∀ text, startsWithL text (strOf "From ") = false → parseSplit text = none) ∧
    (∀ text, findNlNl text = none → parseSplit text = none) ∧
    (∀ f p q s text, s.db.any (fun t => t.id == s.start + 1) = false →
      f (urlFor (s.start + 1)) = .page 200 text → parseSplit text = none → s.fail < 5 →
      loopBody f p q s = .next { s with start := s.start + 1, many := s.many - 1, count := s.count + 1, fail := s.fail + 1 }) := by
  refine ⟨?_, ?_, ?_⟩
  · intro text h; simp [parseSplit, h]
  · intro text h
    simp only [parseSplit, h]
    split <;> rfl
  · intro f p q s text hns hf hsp hlt
    rw [loopBody_format_fail f p q s text hns hf hsp, if_neg (by omega)]

/-- Witness for C8 at a concrete input: the text `nope` has no `From `
marker; the iteration counts a failure and continues without persisting. -/
theorem C8_unrecognized_text_is_recoverable_witness :
    loopBody (fun _ => FetchResult.page 200 (strOf "nope")) primId primId ⟨0, 3, 0, 0, []⟩
      = .next ⟨1, 2, 1, 1, []⟩ :=
  C8_unrecognized_text_is_recoverable.2.2 (fun _ => .page 200 (strOf "nope")) primId primId
    ⟨0, 3, 0, 0, []⟩ (strOf "nope") rfl rfl (by decide) (by decide)

/-! ## Claim C9 -/

/-- C9: an identifier already present in the store is never re-fetched and
never re-inserted: for ANY network oracle (hence no request is needed), the
iteration is a pure `continue` whose only effect is moving the cursor onto
that identifier, so the next iteration attempts the following one; the
store and all counters are untouched. -/
theorem C9_stored_id_skipped (f : List Char → FetchResult)
    (p q : List Char → Option (List Char)) (s : LoopState)
    (h : s.db.any (fun r => r.id == s.start + 1) = true) :
    loopBody f p q s = .next { s with start := s.start + 1 } :=
  loopBody_skip f p q s h

/-- Witness for C9 at a concrete state: id 2 is stored, the oracle would
fail every request, and the iteration nevertheless just advances the
cursor. -/
theorem C9_stored_id_skipped_witness :
    loopBody (fun _ => .err) primId primId ⟨1, 4, 0, 0, [stubRow 2]⟩
      = .next ⟨2, 4, 0, 0, [stubRow 2]⟩ :=
  C9_stored_id_skipped (fun _ => .err) primId primId ⟨1, 4, 0, 0, [stubRow 2]⟩ rfl

/-! ## Claim C10 -/

/-- C10: skipping an already-stored identifier leaves all loop state other
than the cursor unchanged (budget, failure counter, processed count and
store are those of the previous state), and a session budget of `N ≥ 0`
results in exactly `N` attempts at identifiers not already stored: a
completed budget run (`runBudget` reaching the prompt) counts `N` non-skip
iterations. -/
theorem C10_skip_frame_and_budget (f : List Char → FetchResult)
    (p q : List Char → Option (List Char)) :
    (∀ s, s.db.any (fun t => t.id == s.start + 1) = true →
      loopBody f p q s = .next { s with start := s.start + 1 }) ∧
    (∀ fuel s t n, 0 ≤ s.many → runBudget f p q fuel s = some (t, n) →
      (n : Int) = s.many) := by
  refine ⟨fun s h => loopBody_skip f p q s h, ?_⟩
  intro fuel
  induction fuel with
  | zero =>
    intro s t n h0 h
    simp [runBudget] at h
  | succ fuel ih =>
    intro s t n h0 h
    simp only [runBudget] at h
    by_cases hm : s.many < 1
    · rw [if_pos hm] at h
      injection h with h
      injection h with h1 h2
      subst h2
      simp only [Int.ofNat_eq_coe, Nat.cast_zero]
      omega
    · rw [if_neg hm] at h
      cases hl : loopBody f p q s with
      | halt r =>
        rw [hl] at h
        dsimp only at h
        exact Option.noConfusion h
      | next r =>
        rw [hl] at h
        dsimp only at h
        cases hr : runBudget f p q fuel r with
        | none => rw [hr] at h; simp at h
        | some tn =>
          obtain ⟨t2, n2⟩ := tn
          rw [hr] at h
          simp only at h
          injection h with h
          injection h with h1 h2
          by_cases hsk : s.db.any (fun u => u.id == s.start + 1) = true
          · have hr2 : loopBody f p q s = .next { s with start := s.start + 1 } :=
              loopBody_skip f p q s hsk
            rw [hl] at hr2
            injection hr2 with hr2
            have hmany : r.many = s.many := by rw [hr2]
            have hn2 := ih r t2 n2 (by rw [hmany]; exact h0) hr
            rw [hsk] at h2
            simp only [if_true] at h2
            subst h2
            rw [hmany] at hn2
            simpa using hn2
          · have hns : s.db.any (fun u => u.id == s.start + 1) = false := by
              cases habs : s.db.any (fun u => u.id == s.start + 1)
              · rfl
              · exact absurd habs hsk
            have hmany := loopBody_next_many f p q s r hns hl
            have h0r : 0 ≤ r.many := by omega
            have hn2 := ih r t2 n2 h0r hr
            rw [hns] at h2
            simp only [Bool.false_eq_true, if_false] at h2
            subst h2
            push_cast
            omega

/-- Witness for C10 at a concrete run: budget 2, ids 2 and 3 already
stored; the run skips 2 and 3, fetches and stores 4 and 5, and counts
exactly 2 attempts. -/
theorem C10_skip_frame_and_budget_witness :
    ((2 : Nat) : Int) = (⟨1, 2, 0, 0, [stubRow 2, stubRow 3]⟩ : LoopState).many :=
  (C10_skip_frame_and_budget fetchGood primId primId).2 10
    ⟨1, 2, 0, 0, [stubRow 2, stubRow 3]⟩
    ⟨5, 0, 2, 0, [stubRow 2, stubRow 3, rowGood 4, rowGood 5]⟩ 2
    (by decide) (by decide)
